import Mathlib

/-!
Shallow embedding of the offer-hub backend core: the project service
(`src/backend/src/services/project.service.ts`), its status transition table
(`src/backend/src/types/project.types.ts`), the project HTTP handlers
(`src/unnamed/part_000`) and the contract HTTP handlers
(`src/backend/src/controllers/contract.controller.ts`).

Conventions of the embedding:
- Persisted and request-level statuses are `String`s, as they are at runtime in
  the JavaScript program; the `ProjectStatus` enum of the TypeScript source is
  an inductive type with a `val` projection onto the four member strings.
- A JS object lookup with a possibly-missing key is `Option`-valued (`none`
  models `undefined`); a JS method call on `undefined` is a distinct crash
  outcome (`typeError`).
- JS truthiness on optional strings is modelled explicitly: `none` and
  `some ""` are both falsy.
- The Supabase/PostgREST query builder is a record of accumulated query
  parameters; `run` applies its semantics: where-clauses, then ordering, then
  the range window, with `count: "exact"` reporting the filtered total that
  ignores the window.
- Numeric budgets and amounts are `Int`; `created_at` is a `Nat` timestamp
  ordered chronologically.
- Thrown `Error`s become outcome constructors, one per distinct message the
  source can throw; the handlers dispatch on them exactly where the source
  dispatches on `error.message`.
-/

namespace OfferHub

/-! ## Character-level string helpers (JS `trim`, lowercase, substring) -/

/-- Leading-whitespace removal on the character list of a string. -/
def trimLeftChars : List Char → List Char
  | [] => []
  | c :: cs => if c.isWhitespace then trimLeftChars cs else c :: cs

/-- JS `String.prototype.trim`: strip leading and trailing whitespace. -/
def jsTrim (s : String) : String :=
  ⟨(trimLeftChars (trimLeftChars s.data.reverse).reverse)⟩

/-- ASCII lowercasing of one character, as Postgres `ilike` folds case. -/
def lowerChar (c : Char) : Char :=
  if 65 ≤ c.toNat && c.toNat ≤ 90 then Char.ofNat (c.toNat + 32) else c

/-- Lowercase every character. -/
def lowerChars (l : List Char) : List Char := l.map lowerChar

/-- `hasInfix pat s`: does `pat` occur as a contiguous run inside `s`? -/
def hasInfix (pat : List Char) : List Char → Bool
  | [] => pat.isEmpty
  | c :: cs => pat.isPrefixOf (c :: cs) || hasInfix pat cs

/-- Postgres `ilike '%pat%'`: case-insensitive substring test, used by the
project-listing category filter. -/
def ilikeContains (s pat : String) : Bool :=
  hasInfix (lowerChars pat.data) (lowerChars s.data)

/-! ## Data model -/

/-- A row of the `users` table, restricted to the columns the core reads. -/
structure User where
  id : String
  name : String
  username : String
  email : String
  is_freelancer : Bool
deriving DecidableEq, Repr

/-- A row of the `projects` table (`Project` in `project.types.ts`).
`status` is the raw persisted string; `created_at` a chronological stamp. -/
structure Project where
  id : String
  client_id : String
  title : String
  description : String
  category : String
  budget : Int
  status : String
  created_at : Nat
deriving DecidableEq, Repr

/-- The relational store as seen by the project service. -/
structure Store where
  users : List User
  projects : List Project
deriving DecidableEq, Repr

/-- The `ProjectStatus` enum of `project.types.ts`. -/
inductive ProjectStatus where
  | pending
  | in_progress
  | completed
  | cancelled
deriving DecidableEq, Repr

/-- The string value of an enum member. -/
def ProjectStatus.val : ProjectStatus → String
  | .pending => "pending"
  | .in_progress => "in_progress"
  | .completed => "completed"
  | .cancelled => "cancelled"

/-- `PROJECT_STATUS_TRANSITIONS` of `project.types.ts`: a JS object keyed by
the four enum strings. Indexing a JS object with any other key yields
`undefined`, hence the `Option` result. -/
def PROJECT_STATUS_TRANSITIONS : String → Option (List String)
  | "pending" => some ["in_progress", "cancelled"]
  | "in_progress" => some ["completed", "cancelled"]
  | "completed" => some []
  | "cancelled" => some []
  | _ => none

/-- `CreateProjectDTO` of `project.types.ts`. -/
structure CreateProjectDTO where
  client_id : String
  title : String
  description : String
  category : String
  budget : Int
deriving Repr

/-- `UpdateProjectDTO` of `project.types.ts`; `none` models an absent
(`undefined`) field. -/
structure UpdateProjectDTO where
  title : Option String := none
  description : Option String := none
  category : Option String := none
  budget : Option Int := none
  status : Option String := none
deriving Repr

/-- `ProjectFilters` of `project.types.ts`. -/
structure ProjectFilters where
  category : Option String := none
  budget_min : Option Int := none
  budget_max : Option Int := none
  status : Option String := none
  page : Option Nat := none
  limit : Option Nat := none
deriving Repr

/-! ## Project service: createProject -/

/-- Outcomes of `ProjectService.createProject`. The two error constructors
stand for the thrown messages `"User not found"` and
`"Only clients can create projects"`; both throws happen before the insert, so
they carry no store. -/
inductive CreateOutcome where
  | userNotFound
  | forbidden
  | ok (store : Store) (p : Project)
deriving DecidableEq, Repr

/-- `ProjectService.createProject` (project.service.ts, lines 13-61). The
store generates `newId` and `now`; the inserted row has trimmed string fields
and status `"pending"`. -/
def createProject (store : Store) (d : CreateProjectDTO) (newId : String)
    (now : Nat) : CreateOutcome :=
  match store.users.find? (fun u => u.id == d.client_id) with
  | none => .userNotFound
  | some user =>
    if user.is_freelancer then .forbidden
    else
      let p : Project :=
        { id := newId
          client_id := d.client_id
          title := jsTrim d.title
          description := jsTrim d.description
          category := jsTrim d.category
          budget := d.budget
          status := "pending"
          created_at := now }
      .ok { store with projects := store.projects ++ [p] } p

/-! ## Project service: updateProject -/

/-- Outcomes of `ProjectService.updateProject`. `notFound` is the `null`
return; `unauthorized` and `invalidTransition` are the thrown messages
`"Unauthorized: You can only update your own projects"` and
`"Invalid status transition from ... to ..."`; `typeError` is the JS
`TypeError` raised by calling `.includes` on the `undefined` produced by a
transition-table lookup with a key outside the enum (line 231-232). -/
inductive UpdateOutcome where
  | notFound
  | unauthorized
  | invalidTransition (src tgt : String)
  | typeError
  | ok (store : Store) (p : Project)
deriving DecidableEq, Repr

/-- Lines 239-256 of `updateProject`: drop `undefined` fields, trim the
truthy string fields, and overwrite the present columns. -/
def applyPatch (p : Project) (u : UpdateProjectDTO) : Project :=
  { p with
    title := match u.title with
      | some t => if t == "" then t else jsTrim t
      | none => p.title
    description := match u.description with
      | some t => if t == "" then t else jsTrim t
      | none => p.description
    category := match u.category with
      | some t => if t == "" then t else jsTrim t
      | none => p.category
    budget := u.budget.getD p.budget
    status := u.status.getD p.status }

/-- `ProjectService.updateProject` (project.service.ts, lines 207-281).
`clientId` is the optional requesting client; the ownership check only runs
when it is truthy. The status-transition check only runs when the patch
status is truthy and differs from the persisted status. The store update
rewrites every row whose id matches, as `update ... eq("id", projectId)`
does, and the returned row is the patched found row (`single()`). -/
def updateProject (store : Store) (projectId : String) (u : UpdateProjectDTO)
    (clientId : Option String) : UpdateOutcome :=
  match store.projects.find? (fun q => q.id == projectId) with
  | none => .notFound
  | some existing =>
    if (match clientId with
        | some c => c != "" && existing.client_id != c
        | none => false) then
      .unauthorized
    else
      let done := UpdateOutcome.ok
        { store with
          projects := store.projects.map
            (fun q => if q.id == projectId then applyPatch q u else q) }
        (applyPatch existing u)
      match u.status with
      | some s =>
        if s != "" && s != existing.status then
          match PROJECT_STATUS_TRANSITIONS existing.status with
          | none => .typeError
          | some allowedTransitions =>
            if allowedTransitions.contains s then done
            else .invalidTransition existing.status s
        else done
      | none => done

/-! ## Project service: deleteProject -/

/-- Outcomes of `ProjectService.deleteProject`. `notFound` is the `false`
return; `invalidState` is the thrown
`"Can only delete projects that are still pending"`; `ok` is the `true`
return carrying the store after the soft delete. -/
inductive DeleteOutcome where
  | notFound
  | unauthorized
  | invalidState
  | ok (store : Store)
deriving DecidableEq, Repr

/-- `ProjectService.deleteProject` (project.service.ts, lines 283-318):
soft delete to status `"cancelled"`, only from `"pending"`. -/
def deleteProject (store : Store) (projectId : String)
    (clientId : Option String) : DeleteOutcome :=
  match store.projects.find? (fun q => q.id == projectId) with
  | none => .notFound
  | some existing =>
    if (match clientId with
        | some c => c != "" && existing.client_id != c
        | none => false) then
      .unauthorized
    else if existing.status != "pending" then .invalidState
    else
      .ok { store with
        projects := store.projects.map
          (fun q => if q.id == projectId then { q with status := "cancelled" }
                    else q) }

/-! ## Project service: getAllProjects (Supabase query builder) -/

/-- The Supabase/PostgREST query the service builds over `projects` with the
`users!inner` join and `count: "exact"`: a record of accumulated query
parameters, one per builder method the source calls. -/
structure SupaProjectQuery where
  ilikeCategory : Option String := none
  gteBudget : Option Int := none
  lteBudget : Option Int := none
  eqStatus : Option String := none
  rangeWindow : Option (Nat × Nat) := none
  orderDescCreated : Bool := false
deriving Repr

/-- `query.ilike("category", pat)`. -/
def SupaProjectQuery.ilike (q : SupaProjectQuery) (pat : String) :
    SupaProjectQuery := { q with ilikeCategory := some pat }

/-- `query.gte("budget", m)`. -/
def SupaProjectQuery.gte (q : SupaProjectQuery) (m : Int) : SupaProjectQuery :=
  { q with gteBudget := some m }

/-- `query.lte("budget", m)`. -/
def SupaProjectQuery.lte (q : SupaProjectQuery) (m : Int) : SupaProjectQuery :=
  { q with lteBudget := some m }

/-- `query.eq("status", s)`. -/
def SupaProjectQuery.eq (q : SupaProjectQuery) (s : String) :
    SupaProjectQuery := { q with eqStatus := some s }

/-- `query.range(a, b)`. -/
def SupaProjectQuery.range (q : SupaProjectQuery) (a b : Nat) :
    SupaProjectQuery := { q with rangeWindow := some (a, b) }

/-- `query.order("created_at", { ascending: false })`. -/
def SupaProjectQuery.order (q : SupaProjectQuery) : SupaProjectQuery :=
  { q with orderDescCreated := true }

/-- Does a project row satisfy every accumulated where-clause, including the
`users!inner` join that drops rows without a matching user? -/
def SupaProjectQuery.matchesRow (q : SupaProjectQuery) (users : List User)
    (p : Project) : Bool :=
  (users.find? (fun u => u.id == p.client_id)).isSome
  && (match q.ilikeCategory with
      | some pat => ilikeContains p.category pat
      | none => true)
  && (match q.gteBudget with
      | some m => decide (m ≤ p.budget)
      | none => true)
  && (match q.lteBudget with
      | some m => decide (p.budget ≤ m)
      | none => true)
  && (match q.eqStatus with
      | some s => p.status == s
      | none => true)

/-- Newest-first ordering on `created_at`. -/
def sortByCreatedDesc (l : List Project) : List Project :=
  l.mergeSort (fun a b => Nat.ble b.created_at a.created_at)

/-- PostgREST semantics of executing the accumulated query: apply the
where-clauses, then the ordering, then the inclusive range window — the
builder's call order does not matter — and report the `count: "exact"` total
of the filtered set, ignoring the window. -/
def SupaProjectQuery.run (q : SupaProjectQuery) (store : Store) :
    List Project × Nat :=
  let filtered := store.projects.filter (q.matchesRow store.users)
  let ordered := if q.orderDescCreated then sortByCreatedDesc filtered
                 else filtered
  let windowed := match q.rangeWindow with
    | some (a, b) => (ordered.drop a).take (b + 1 - a)
    | none => ordered
  (windowed, filtered.length)

/-- The client summary embedded in each listed project. -/
structure ClientSummary where
  id : String
  name : String
  username : String
  email : String
deriving DecidableEq, Repr

/-- `ProjectWithClient` of `project.types.ts`. -/
structure ProjectWithClient where
  project : Project
  client : ClientSummary
deriving DecidableEq, Repr

/-- The per-row transform of `getAllProjects` (lines 126-149): attach the
joined user's summary. The inner join guarantees the user exists; the
source's optional chaining on a missing one would yield `undefined` fields,
modelled as empty strings. -/
def toProjectWithClient (users : List User) (p : Project) : ProjectWithClient :=
  match users.find? (fun u => u.id == p.client_id) with
  | some u => ⟨p, ⟨u.id, u.name, u.username, u.email⟩⟩
  | none => ⟨p, ⟨"", "", "", ""⟩⟩

/-- Lines 66-118 of `getAllProjects`: defaults from destructuring, then the
conditionally applied builder calls in source order. JS truthiness makes an
empty-string category or status skip its filter. -/
def buildProjectQuery (filters : ProjectFilters) : SupaProjectQuery :=
  let page := filters.page.getD 1
  let limit := filters.limit.getD 10
  let q : SupaProjectQuery := {}
  let q := match filters.category with
    | some c => if c != "" then q.ilike c else q
    | none => q
  let q := match filters.budget_min with
    | some m => q.gte m
    | none => q
  let q := match filters.budget_max with
    | some m => q.lte m
    | none => q
  let q := match filters.status with
    | some s => if s != "" then q.eq s else q
    | none => q
  let offset := (page - 1) * limit
  let q := q.range offset (offset + limit - 1)
  q.order

/-- `ProjectService.getAllProjects` (project.service.ts, lines 63-155):
build the query, run it, and attach each row's client summary. -/
def getAllProjects (filters : ProjectFilters) (store : Store) :
    List ProjectWithClient × Nat :=
  let r := (buildProjectQuery filters).run store
  (r.1.map (toProjectWithClient store.users), r.2)

/-! ## Project service: getProjectCategories -/

/-- Worker for JS `Set` deduplication: keep the first occurrence of each
element, in insertion order; `seen` is the set built so far. -/
def dedupFirstGo : List String → List String → List String
  | [], _ => []
  | x :: xs, seen =>
    if seen.contains x then dedupFirstGo xs seen
    else x :: dedupFirstGo xs (x :: seen)

/-- `[...new Set(xs)]`: first occurrences in order. -/
def dedupFirst (l : List String) : List String := dedupFirstGo l []

/-- UTF code-unit lexicographic order on character lists, as JS
`Array.prototype.sort()` compares strings. -/
def lexLe : List Char → List Char → Bool
  | [], _ => true
  | _ :: _, [] => false
  | a :: as, b :: bs =>
    if a.toNat < b.toNat then true
    else if b.toNat < a.toNat then false
    else lexLe as bs

/-- JS default string sort as used on the category list. -/
def sortStrings (l : List String) : List String :=
  l.mergeSort (fun a b => lexLe a.data b.data)

/-- `ProjectService.getProjectCategories` (project.service.ts, lines
346-361): categories of rows with `status != "cancelled"`, deduplicated via
`Set`, then sorted. -/
def getProjectCategories (store : Store) : List String :=
  let rows := (store.projects.filter (fun p => p.status != "cancelled")).map
    (fun p => p.category)
  let uniqueCategories := dedupFirst rows
  sortStrings uniqueCategories

/-! ## Project HTTP handlers (`src/unnamed/part_000`) -/

/-- An HTTP reply: the status code and the JSON `success`/`message` pair. -/
structure HttpResponse where
  status : Nat
  success : Bool
  message : String
deriving DecidableEq, Repr

/-- `Object.values(ProjectStatus)` as the handlers check enum membership. -/
def VALID_PROJECT_STATUSES : List String :=
  ["pending", "in_progress", "completed", "cancelled"]

/-- `updateProjectHandler` (part_000, lines 180-259). `idIsUuid` abstracts
the UUID-format regex test, which the spec keeps external. The handler calls
`projectService.updateProject(id, updateData)` with NO third argument (line
223), so the service's `clientId` is `undefined` (`none`). The catch clauses
map the service's thrown messages; anything else goes to `next(error)`,
the generic 500 path. -/
def updateProjectHandler (store : Store) (idIsUuid : Bool) (id : String)
    (body : UpdateProjectDTO) : HttpResponse :=
  if !idIsUuid then ⟨400, false, "Invalid project ID format"⟩
  else if (match body.budget with
           | some b => decide (b < 0)
           | none => false) then
    ⟨400, false, "Budget must be a positive number"⟩
  else if (match body.status with
           | some s => s != "" && !(VALID_PROJECT_STATUSES.contains s)
           | none => false) then
    ⟨400, false, "Invalid status. Must be one of: pending, in_progress, completed, cancelled"⟩
  else
    match updateProject store id body none with
    | .notFound => ⟨404, false, "Project not found"⟩
    | .unauthorized => ⟨403, false, "You can only update your own projects"⟩
    | .invalidTransition src tgt =>
      ⟨400, false, "Invalid status transition from " ++ src ++ " to " ++ tgt⟩
    | .typeError => ⟨500, false, "Internal server error"⟩
    | .ok _ _ => ⟨200, true, "Project updated successfully"⟩

/-- `deleteProjectHandler` (part_000, lines 261-315): calls
`projectService.deleteProject(id)` with no `clientId` (line 280). -/
def deleteProjectHandler (store : Store) (idIsUuid : Bool) (id : String) :
    HttpResponse :=
  if !idIsUuid then ⟨400, false, "Invalid project ID format"⟩
  else
    match deleteProject store id none with
    | .notFound => ⟨404, false, "Project not found"⟩
    | .unauthorized => ⟨403, false, "You can only delete your own projects"⟩
    | .invalidState => ⟨400, false, "Can only delete projects that are still pending"⟩
    | .ok _ => ⟨200, true, "Project deleted successfully"⟩

/-! ## Contract side (`contract.controller.ts`; the service is spec-modelled) -/

/-- Modelled from the spec: `CONTRACT_TYPES` lives in `utils/validation`,
which is not among the sources; the spec fixes contract_type ∈
{project, service}. -/
def CONTRACT_TYPES : List String := ["project", "service"]

/-- Modelled from the spec: `ESCROW_STATUSES` of `utils/validation`; the
spec fixes escrow_status ∈ {pending, funded, released, disputed}. -/
def ESCROW_STATUSES : List String := ["pending", "funded", "released", "disputed"]

/-- Modelled from the spec: `ACTIVE_ESCROW_STATUSES` of `utils/validation`;
the spec fixes the settable targets to {funded, released, disputed}. -/
def ACTIVE_ESCROW_STATUSES : List String := ["funded", "released", "disputed"]

/-- Modelled from the spec: `HTTP_STATUS` of `types/api.type` is not among
the sources; the names carry the standard codes the spec's §6 table uses. -/
def HTTP_STATUS_OK : Nat := 200

/-- Modelled from the spec: see `HTTP_STATUS_OK`. -/
def HTTP_STATUS_CREATED : Nat := 201

/-- Modelled from the spec: see `HTTP_STATUS_OK`. -/
def HTTP_STATUS_BAD_REQUEST : Nat := 400

/-- Modelled from the spec: see `HTTP_STATUS_OK`. -/
def HTTP_STATUS_NOT_FOUND : Nat := 404

/-- The request body of `POST /contracts` as the handler destructures it;
`none` models an absent field. -/
structure CreateContractBody where
  contract_type : Option String := none
  freelancer_id : Option String := none
  client_id : Option String := none
  contract_on_chain_id : Option String := none
  amount_locked : Option Int := none
  project_id : Option String := none
  service_request_id : Option String := none
deriving Repr

/-- A row of the `contracts` table, restricted to what creation writes. -/
structure Contract where
  id : String
  contract_type : String
  freelancer_id : String
  client_id : String
  project_id : Option String
  service_request_id : Option String
  contract_on_chain_id : String
  amount_locked : Int
  escrow_status : String
deriving DecidableEq, Repr

/-- Outcomes of the contract service's `createContract`. `usersNotFound` is
the thrown `"Freelancer or client not found"`; `invalidInput` carries the
other thrown validation messages. -/
inductive CreateContractOutcome where
  | invalidInput (message : String)
  | usersNotFound
  | ok (c : Contract)
deriving DecidableEq, Repr

/-- Modelled from the spec: `contract.service.ts` is not among the sources.
Following §4.2, `createContract` checks freelancer ≠ client
(`InvalidInput`), then that both ids resolve to existing users in a single
combined check (`NotFound`, message "Freelancer or client not found"), then
the type-specific required reference, and inserts the row with
escrow_status = pending. -/
def createContract (users : List User) (b : CreateContractBody)
    (newId : String) : CreateContractOutcome :=
  if b.freelancer_id == b.client_id then
    .invalidInput "Freelancer and client cannot be the same user"
  else if !(users.any (fun u => some u.id == b.freelancer_id))
       || !(users.any (fun u => some u.id == b.client_id)) then
    .usersNotFound
  else if b.contract_type == some "project" && b.project_id.isNone then
    .invalidInput "project_id is required for project contracts"
  else if b.contract_type == some "service" && b.service_request_id.isNone then
    .invalidInput "service_request_id is required for service contracts"
  else
    .ok
      { id := newId
        contract_type := b.contract_type.getD ""
        freelancer_id := b.freelancer_id.getD ""
        client_id := b.client_id.getD ""
        project_id := b.project_id
        service_request_id := b.service_request_id
        contract_on_chain_id := b.contract_on_chain_id.getD ""
        amount_locked := b.amount_locked.getD 0
        escrow_status := "pending" }

/-- JS truthiness of an optional string field: absent and empty are falsy. -/
def truthy : Option String → Bool
  | none => false
  | some s => s != ""

/-- `createContractHandler` (contract.controller.ts, lines 44-143): the
shape checks in source order, then the service call, then the catch clauses
mapping the service's thrown messages — the `"Freelancer or client not
found"` clause responds with `HTTP_STATUS.BAD_REQUEST` (line 110), even
though the handler's own doc comment lists that failure under 404. -/
def createContractHandler (users : List User) (b : CreateContractBody)
    (newId : String) : HttpResponse :=
  if !(truthy b.contract_type) || !(truthy b.freelancer_id)
     || !(truthy b.client_id) || !(truthy b.contract_on_chain_id)
     || b.amount_locked.isNone then
    ⟨HTTP_STATUS_BAD_REQUEST, false,
      "Missing required fields: contract_type, freelancer_id, client_id, contract_on_chain_id, amount_locked"⟩
  else if !(CONTRACT_TYPES.contains (b.contract_type.getD "")) then
    ⟨HTTP_STATUS_BAD_REQUEST, false, "contract_type must be 'project' or 'service'"⟩
  else if decide (b.amount_locked.getD 0 ≤ 0) then
    ⟨HTTP_STATUS_BAD_REQUEST, false, "amount_locked must be greater than 0"⟩
  else if (jsTrim (b.contract_on_chain_id.getD "")).data.isEmpty then
    ⟨HTTP_STATUS_BAD_REQUEST, false, "contract_on_chain_id cannot be empty"⟩
  else
    match createContract users b newId with
    | .usersNotFound =>
      ⟨HTTP_STATUS_BAD_REQUEST, false, "Freelancer or client not found"⟩
    | .invalidInput m => ⟨HTTP_STATUS_BAD_REQUEST, false, m⟩
    | .ok _ => ⟨HTTP_STATUS_CREATED, true, "Contract created successfully"⟩

/-- Where `updateContractStatusHandler` stands after its shape checks:
either it has already replied, or it proceeds to call
`contractService.updateContractStatus` with the accepted target. -/
inductive ContractStatusHandlerStep where
  | reject (status : Nat) (message : String)
  | proceedToService (escrow : String)
deriving DecidableEq, Repr

/-- The shape-check prefix of `updateContractStatusHandler`
(contract.controller.ts, lines 242-279): UUID format, required
`escrow_status` (JS-falsy means missing), and membership in
`ACTIVE_ESCROW_STATUSES`. -/
def updateContractStatusHandler (idIsUuid : Bool)
    (escrow_status : Option String) : ContractStatusHandlerStep :=
  if !idIsUuid then .reject 400 "Invalid contract ID format"
  else if !(truthy escrow_status) then
    .reject HTTP_STATUS_BAD_REQUEST "escrow_status is required"
  else if !(ACTIVE_ESCROW_STATUSES.contains (escrow_status.getD "")) then
    .reject HTTP_STATUS_BAD_REQUEST
      "escrow_status must be 'funded', 'released', or 'disputed'"
  else .proceedToService (escrow_status.getD "")

/-! ## Spec-side formulation of the project listing (for the refinement
claim about `getAllProjects`) -/

/-- Written from the spec's words (§4.1 listProjects, §8): a listed project
must have its client (the join), match the category substring
case-insensitively, lie within the inclusive budget bounds, and match the
status exactly. -/
def specKeep (filters : ProjectFilters) (store : Store) (p : Project) :
    Bool :=
  (store.users.find? (fun u => u.id == p.client_id)).isSome
  && (match filters.category with
      | some c => ilikeContains p.category c
      | none => true)
  && (match filters.budget_min with
      | some m => decide (m ≤ p.budget)
      | none => true)
  && (match filters.budget_max with
      | some m => decide (p.budget ≤ m)
      | none => true)
  && (match filters.status with
      | some s => p.status == s
      | none => true)

/-- Written from the spec's words: filter, order newest first, return the
page slice at offset (page−1)·limit of length limit — page defaulting to 1
and limit to 10 — together with the filtered total. To be compared with
`getAllProjects`, which goes through the query builder. -/
def listProjectsSpec (filters : ProjectFilters) (store : Store) :
    List ProjectWithClient × Nat :=
  let page := filters.page.getD 1
  let limit := filters.limit.getD 10
  let filtered := store.projects.filter (specKeep filters store)
  let ordered := sortByCreatedDesc filtered
  (((ordered.drop ((page - 1) * limit)).take limit).map
      (toProjectWithClient store.users),
   filtered.length)

/-! ## Helper lemmas -/

theorem applyPatch_id (p : Project) (u : UpdateProjectDTO) :
    (applyPatch p u).id = p.id := rfl

theorem applyPatch_status (p : Project) (u : UpdateProjectDTO) :
    (applyPatch p u).status = u.status.getD p.status := rfl

/-- `find?` over an id-targeted row rewrite finds the rewritten row: the
rewrite preserves every row's id, so the first match is the image of the
first match. -/
theorem find?_update_map (l : List Project) (pid : String)
    (g : Project → Project) (hg : ∀ q, (g q).id = q.id) (p : Project)
    (hfind : l.find? (fun q => q.id == pid) = some p) :
    (l.map (fun q => if q.id == pid then g q else q)).find?
      (fun q => q.id == pid) = some (g p) := by
  induction l with
  | nil => simp at hfind
  | cons a l ih =>
    by_cases h : (a.id == pid) = true
    · rw [@List.find?_cons_of_pos _ (fun q => q.id == pid) a l h] at hfind
      obtain rfl : a = p := by simpa using hfind
      simp only [List.map_cons, if_pos h]
      have hgp : ((g a).id == pid) = true := by rw [hg]; exact h
      rw [@List.find?_cons_of_pos _ (fun q => q.id == pid) (g a) _ hgp]
    · rw [@List.find?_cons_of_neg _ (fun q => q.id == pid) a l h] at hfind
      simp only [List.map_cons, if_neg h]
      rw [@List.find?_cons_of_neg _ (fun q => q.id == pid) a _ h]
      exact ih hfind

/-- An empty pattern is a substring of anything: `ilike '%%'` matches every
row, which is why the source's skip-on-empty-category behaviour agrees with
the spec's unconditional substring filter. -/
theorem hasInfix_nil (l : List Char) : hasInfix [] l = true := by
  cases l with
  | nil => rfl
  | cons c cs => rfl

theorem ilikeContains_empty (s : String) : ilikeContains s "" = true := by
  unfold ilikeContains
  exact hasInfix_nil _

/-- The query `getAllProjects` accumulates, field by field. -/
theorem buildProjectQuery_fields (f : ProjectFilters) :
    buildProjectQuery f =
      { ilikeCategory := match f.category with
          | some c => if c != "" then some c else none
          | none => none
        gteBudget := f.budget_min
        lteBudget := f.budget_max
        eqStatus := match f.status with
          | some s => if s != "" then some s else none
          | none => none
        rangeWindow := some ((f.page.getD 1 - 1) * f.limit.getD 10,
          (f.page.getD 1 - 1) * f.limit.getD 10 + f.limit.getD 10 - 1)
        orderDescCreated := true } := by
  unfold buildProjectQuery SupaProjectQuery.ilike SupaProjectQuery.gte
    SupaProjectQuery.lte SupaProjectQuery.eq SupaProjectQuery.range
    SupaProjectQuery.order
  rcases f with ⟨c?, bmin?, bmax?, st?, pg?, lim?⟩
  cases c? <;> cases bmin? <;> cases bmax? <;> cases st? <;>
    dsimp only <;> (try split) <;> (try split) <;> rfl

/-! ## Claim theorems -/

/-- C2: for a persisted status outside the `ProjectStatus` enum (here
`"archived"`), the transition-table lookup yields `undefined` (`none`) and
`updateProject` with a different patch status crashes with a JS `TypeError`
(`.includes` of `undefined`) instead of failing with `InvalidTransition`:
the claim's no-crash behaviour does not hold on the code. -/
theorem updateProject_unknown_status_crashes :
    PROJECT_STATUS_TRANSITIONS "archived" = none
  ∧ updateProject ⟨[], [⟨"p-9", "c-1", "T", "D", "Cat", 50, "archived", 1⟩]⟩
      "p-9" { status := some "pending" } none = .typeError
  ∧ UpdateOutcome.typeError
      ≠ .invalidTransition "archived" "pending" := by
  refine ⟨rfl, by decide, by decide⟩

/-- C3: a `createContract` request that passes the handler's shape checks but
whose freelancer and client ids resolve to no user is answered with HTTP 400
(`HTTP_STATUS.BAD_REQUEST`, contract.controller.ts line 110) and the message
"Freelancer or client not found" — not with the 404 the claim (and the
handler's own doc comment) states. -/
theorem createContract_missing_users_maps_to_400 :
    createContractHandler []
      { contract_type := some "project", freelancer_id := some "f-1",
        client_id := some "c-1", contract_on_chain_id := some "0xabc",
        amount_locked := some 1000, project_id := some "p-1" } "ct-1"
      = ⟨HTTP_STATUS_BAD_REQUEST, false, "Freelancer or client not found"⟩
  ∧ createContract []
      { contract_type := some "project", freelancer_id := some "f-1",
        client_id := some "c-1", contract_on_chain_id := some "0xabc",
        amount_locked := some 1000, project_id := some "p-1" } "ct-1"
      = .usersNotFound
  ∧ HTTP_STATUS_BAD_REQUEST ≠ HTTP_STATUS_NOT_FOUND := by
  refine ⟨by decide, by decide, by decide⟩

/-- C4: `createProject` fails with `NotFound` (`"User not found"`) when the
referenced user is absent; fails with `Forbidden`
(`"Only clients can create projects"`) before touching the projects table
when the user is freelancer-flagged; and otherwise appends exactly one row
with status `"pending"` and trimmed title, description and category. -/
theorem createProject_branches (store : Store) (d : CreateProjectDTO)
    (newId : String) (now : Nat) :
    (store.users.find? (fun u => u.id == d.client_id) = none →
        createProject store d newId now = .userNotFound)
  ∧ (∀ u, store.users.find? (fun u' => u'.id == d.client_id) = some u →
        u.is_freelancer = true → createProject store d newId now = .forbidden)
  ∧ (∀ u, store.users.find? (fun u' => u'.id == d.client_id) = some u →
        u.is_freelancer = false →
        ∃ p, createProject store d newId now
            = .ok { store with projects := store.projects ++ [p] } p
          ∧ p.status = "pending"
          ∧ p.title = jsTrim d.title
          ∧ p.description = jsTrim d.description
          ∧ p.category = jsTrim d.category
          ∧ p.budget = d.budget
          ∧ p.client_id = d.client_id) := by
  refine ⟨fun hnone => ?_, fun u hu hf => ?_, fun u hu hf => ?_⟩
  · simp only [createProject, hnone]
  · simp only [createProject, hu, hf, if_true]
  · refine ⟨{ id := newId, client_id := d.client_id, title := jsTrim d.title,
              description := jsTrim d.description,
              category := jsTrim d.category, budget := d.budget,
              status := "pending", created_at := now },
      ?_, rfl, rfl, rfl, rfl, rfl, rfl⟩
    simp only [createProject, hu, hf, Bool.false_eq_true, if_false]

/-- C4 witness: on a concrete store holding a freelancer-flagged user, the
third branch applies for the plain client and produces the trimmed pending
row. -/
theorem createProject_branches_witness :
    ∃ p, createProject
        ⟨[⟨"f-1", "John", "john", "jo@x", true⟩,
          ⟨"c-1", "Jane", "jane", "ja@x", false⟩], []⟩
        ⟨"c-1", "  Site  ", " Build it ", " Web Dev ", 250⟩ "p-1" 7
        = .ok ⟨[⟨"f-1", "John", "john", "jo@x", true⟩,
                ⟨"c-1", "Jane", "jane", "ja@x", false⟩], [p]⟩ p
      ∧ p.status = "pending"
      ∧ p.title = jsTrim "  Site  "
      ∧ p.description = jsTrim " Build it "
      ∧ p.category = jsTrim " Web Dev "
      ∧ p.budget = 250
      ∧ p.client_id = "c-1" :=
  (createProject_branches
      ⟨[⟨"f-1", "John", "john", "jo@x", true⟩,
        ⟨"c-1", "Jane", "jane", "ja@x", false⟩], []⟩
      ⟨"c-1", "  Site  ", " Build it ", " Web Dev ", 250⟩ "p-1" 7).2.2
    ⟨"c-1", "Jane", "jane", "ja@x", false⟩ (by decide) rfl

/-- C10: when the patch restates the project's current status, `updateProject`
skips the transition check (the guard on line 229 is false) and succeeds,
whatever the current status is — including the transition-less terminal
statuses `completed` and `cancelled`. -/
theorem updateProject_same_status_succeeds (store : Store) (p : Project)
    (u : UpdateProjectDTO)
    (hfind : store.projects.find? (fun q => q.id == p.id) = some p)
    (hu : u.status = some p.status) :
    ∃ store1 p1, updateProject store p.id u none = .ok store1 p1
      ∧ p1.status = p.status := by
  refine ⟨{ store with projects := store.projects.map (fun q => if q.id == p.id then applyPatch q u else q) }, applyPatch p u, ?_, ?_⟩
  · simp only [updateProject, hfind, hu, bne_self_eq_false,
      Bool.and_false, Bool.false_eq_true, if_false]
  · rw [applyPatch_status, hu]; rfl

/-- C10 witness: restating `"completed"` on a completed project succeeds even
though `completed` has no outgoing transitions. -/
theorem updateProject_same_status_succeeds_witness :
    ∃ store1 p1, updateProject
        ⟨[], [⟨"p-1", "c-1", "T", "D", "Cat", 9, "completed", 3⟩]⟩ "p-1"
        { status := some "completed" } none = .ok store1 p1
      ∧ p1.status = "completed" :=
  updateProject_same_status_succeeds
    ⟨[], [⟨"p-1", "c-1", "T", "D", "Cat", 9, "completed", 3⟩]⟩
    ⟨"p-1", "c-1", "T", "D", "Cat", 9, "completed", 3⟩
    { status := some "completed" } (by decide) rfl

/-- C5: `deleteProject` returns `false` for a missing project, fails with
`InvalidState` (`"Can only delete projects that are still pending"`) for any
current status other than `"pending"`, and for a pending project soft-deletes
— the row stays, its status becomes `"cancelled"`, the call returns `true`,
and a second `deleteProject` on the result fails with `InvalidState`. -/
theorem deleteProject_lifecycle (store : Store) :
    (∀ pid, store.projects.find? (fun q => q.id == pid) = none →
        deleteProject store pid none = .notFound)
  ∧ (∀ p, store.projects.find? (fun q => q.id == p.id) = some p →
        p.status ≠ "pending" → deleteProject store p.id none = .invalidState)
  ∧ (∀ p, store.projects.find? (fun q => q.id == p.id) = some p →
        p.status = "pending" →
        ∃ store1, deleteProject store p.id none = .ok store1
          ∧ (store1.projects.find? (fun q => q.id == p.id)).map Project.status
              = some "cancelled"
          ∧ store1.projects.length = store.projects.length
          ∧ deleteProject store1 p.id none = .invalidState) := by
  refine ⟨fun pid hnone => ?_, fun p hfind hstat => ?_, fun p hfind hstat => ?_⟩
  · simp only [deleteProject, hnone]
  · simp only [deleteProject, hfind, bne_iff_ne.mpr hstat, Bool.false_eq_true,
      if_false, if_true]
  · have hmap := find?_update_map store.projects p.id
      (fun q => { q with status := "cancelled" }) (fun _ => rfl) p hfind
    refine ⟨{ store with projects := store.projects.map (fun q => if q.id == p.id then { q with status := "cancelled" } else q) }, ?_, ?_, ?_, ?_⟩
    · simp only [deleteProject, hfind, hstat, bne_self_eq_false,
        Bool.false_eq_true, if_false]
    · rw [hmap]; rfl
    · exact store.projects.length_map _
    · simp only [deleteProject, hmap]
      rfl

/-- C5 witness: deleting a concrete pending project succeeds, keeps the row
with status `"cancelled"`, and a repeat delete fails. -/
theorem deleteProject_lifecycle_witness :
    ∃ store1, deleteProject
        ⟨[], [⟨"p-1", "c-1", "T", "D", "Cat", 5, "pending", 1⟩]⟩ "p-1" none
        = .ok store1
      ∧ (store1.projects.find? (fun q => q.id == "p-1")).map Project.status
          = some "cancelled"
      ∧ store1.projects.length = 1
      ∧ deleteProject store1 "p-1" none = .invalidState :=
  (deleteProject_lifecycle
      ⟨[], [⟨"p-1", "c-1", "T", "D", "Cat", 5, "pending", 1⟩]⟩).2.2
    ⟨"p-1", "c-1", "T", "D", "Cat", 5, "pending", 1⟩ (by decide) rfl

/-- C9: the HTTP update and delete handlers call the service without a
`requesting_client_id` (part_000 lines 223 and 280), so the service's
`Unauthorized` outcome — and hence a 403 reply — is unreachable through
them, for every store, id and request body. -/
theorem handlers_never_unauthorized (store : Store) (idIsUuid : Bool)
    (id : String) (body : UpdateProjectDTO) :
    updateProject store id body none ≠ .unauthorized
  ∧ deleteProject store id none ≠ .unauthorized
  ∧ (updateProjectHandler store idIsUuid id body).status ≠ 403
  ∧ (deleteProjectHandler store idIsUuid id).status ≠ 403 := by
  have hup : updateProject store id body none ≠ .unauthorized := by
    unfold updateProject
    split
    · simp
    · split
      · simp_all
      · split
        · split
          · split
            · simp
            · split <;> simp
          · simp
        · simp
  have hdel : deleteProject store id none ≠ .unauthorized := by
    unfold deleteProject
    split
    · simp
    · split
      · simp_all
      · split <;> simp
  refine ⟨hup, hdel, ?_, ?_⟩
  · unfold updateProjectHandler
    split
    · simp
    · split
      · simp
      · split
        · simp
        · split <;> simp_all
  · unfold deleteProjectHandler
    split
    · simp
    · split <;> simp_all

/-- C6: with a well-formed contract id, `updateContractStatusHandler` replies
400 exactly when `escrow_status` is JS-falsy (absent or empty) or outside
`ACTIVE_ESCROW_STATUSES` = {funded, released, disputed}; `"pending"` in
particular is rejected, and an allowed value proceeds to the service. -/
theorem updateContractStatusHandler_validation (es : Option String) :
    ((∃ m, updateContractStatusHandler true es = .reject 400 m) ↔
      (truthy es = false
        ∨ ACTIVE_ESCROW_STATUSES.contains (es.getD "") = false))
  ∧ updateContractStatusHandler true (some "pending")
      = .reject 400 "escrow_status must be 'funded', 'released', or 'disputed'"
  ∧ (∀ s, es = some s → ACTIVE_ESCROW_STATUSES.contains s = true →
      updateContractStatusHandler true es = .proceedToService s) := by
  refine ⟨?_, by decide, fun s hs hc => ?_⟩
  · cases es with
    | none =>
      simp [updateContractStatusHandler, truthy, HTTP_STATUS_BAD_REQUEST]
    | some s =>
      by_cases hs : s = ""
      · subst hs
        simp [updateContractStatusHandler, truthy, HTTP_STATUS_BAD_REQUEST]
      · by_cases hc : ACTIVE_ESCROW_STATUSES.contains s = true
        · have hmem : s ∈ ACTIVE_ESCROW_STATUSES := by simpa using hc
          simp [updateContractStatusHandler, truthy, bne_iff_ne.mpr hs, hc,
            hmem, HTTP_STATUS_BAD_REQUEST]
        · simp only [Bool.not_eq_true] at hc
          have hmem : s ∉ ACTIVE_ESCROW_STATUSES := by simpa using hc
          simp [updateContractStatusHandler, truthy, bne_iff_ne.mpr hs, hc,
            hmem, HTTP_STATUS_BAD_REQUEST]
  · subst hs
    have hmem : s ∈ ACTIVE_ESCROW_STATUSES := by simpa using hc
    have hs' : s ≠ "" := by fin_cases hmem <;> decide
    simp [updateContractStatusHandler, truthy, bne_iff_ne.mpr hs', hc, hmem,
      HTTP_STATUS_BAD_REQUEST]

/-- C6 witness: the accepted value `"funded"` proceeds to the service. -/
theorem updateContractStatusHandler_validation_witness :
    updateContractStatusHandler true (some "funded")
      = .proceedToService "funded" :=
  (updateContractStatusHandler_validation (some "funded")).2.2 "funded" rfl
    (by decide)

/-- C1: for a project whose persisted status is one of the four enum values
and a patch whose status is a different enum value, `updateProject` fails
with `InvalidTransition` exactly when the target is outside
`PROJECT_STATUS_TRANSITIONS` of the current status, and otherwise succeeds
and persists the new status; the table is pending → {in_progress, cancelled},
in_progress → {completed, cancelled}, completed → {}, cancelled → {}. -/
theorem updateProject_transition_table (store : Store) (p : Project)
    (cur tgt : ProjectStatus) (u : UpdateProjectDTO)
    (hfind : store.projects.find? (fun q => q.id == p.id) = some p)
    (hcur : p.status = cur.val) (hne : tgt.val ≠ cur.val)
    (hu : u.status = some tgt.val) :
    (((PROJECT_STATUS_TRANSITIONS cur.val).getD []).contains tgt.val = false →
        updateProject store p.id u none = .invalidTransition cur.val tgt.val)
  ∧ (((PROJECT_STATUS_TRANSITIONS cur.val).getD []).contains tgt.val = true →
      ∃ store1 p1, updateProject store p.id u none = .ok store1 p1
        ∧ p1.status = tgt.val
        ∧ (store1.projects.find? (fun q => q.id == p.id)).map Project.status
            = some tgt.val)
  ∧ PROJECT_STATUS_TRANSITIONS "pending" = some ["in_progress", "cancelled"]
  ∧ PROJECT_STATUS_TRANSITIONS "in_progress"
      = some ["completed", "cancelled"]
  ∧ PROJECT_STATUS_TRANSITIONS "completed" = some []
  ∧ PROJECT_STATUS_TRANSITIONS "cancelled" = some [] := by
  have htruthy : (tgt.val != "") = true := by cases tgt <;> decide
  have hbne : (tgt.val != p.status) = true := by
    rw [hcur]; exact bne_iff_ne.mpr hne
  have hbne2 : (tgt.val != cur.val) = true := bne_iff_ne.mpr hne
  obtain ⟨allowed, hlk⟩ : ∃ l, PROJECT_STATUS_TRANSITIONS cur.val = some l := by
    cases cur <;> exact ⟨_, rfl⟩
  refine ⟨fun hc => ?_, fun hc => ?_, rfl, rfl, rfl, rfl⟩
  · rw [hlk, Option.getD_some] at hc
    simp [updateProject, hfind, hu, htruthy, hbne2, hcur, hlk, hc]
    simpa using hc
  · rw [hlk, Option.getD_some] at hc
    refine ⟨{ store with projects := store.projects.map (fun q => if q.id == p.id then applyPatch q u else q) }, applyPatch p u, ?_, ?_, ?_⟩
    · simp [updateProject, hfind, hu, htruthy, hbne2, hcur, hlk, hc]
      simpa using hc
    · rw [applyPatch_status, hu]; rfl
    · rw [find?_update_map store.projects p.id (fun q => applyPatch q u)
        (fun _ => rfl) p hfind]
      simp [applyPatch_status, hu]

/-- C1 witness: on a concrete pending project, `in_progress` is accepted and
persisted while `completed` is rejected with `InvalidTransition`. -/
theorem updateProject_transition_table_witness :
    (∃ store1 p1, updateProject
        ⟨[], [⟨"p-1", "c-1", "T", "D", "Cat", 5, "pending", 1⟩]⟩ "p-1"
        { status := some "in_progress" } none = .ok store1 p1
      ∧ p1.status = "in_progress"
      ∧ (store1.projects.find? (fun q => q.id == "p-1")).map Project.status
          = some "in_progress")
  ∧ updateProject ⟨[], [⟨"p-1", "c-1", "T", "D", "Cat", 5, "pending", 1⟩]⟩
      "p-1" { status := some "completed" } none
      = .invalidTransition "pending" "completed" :=
  ⟨(updateProject_transition_table
      ⟨[], [⟨"p-1", "c-1", "T", "D", "Cat", 5, "pending", 1⟩]⟩
      ⟨"p-1", "c-1", "T", "D", "Cat", 5, "pending", 1⟩
      ProjectStatus.pending ProjectStatus.in_progress
      { status := some "in_progress" } (by decide) rfl (by decide) rfl).2.1
    (by decide),
   (updateProject_transition_table
      ⟨[], [⟨"p-1", "c-1", "T", "D", "Cat", 5, "pending", 1⟩]⟩
      ⟨"p-1", "c-1", "T", "D", "Cat", 5, "pending", 1⟩
      ProjectStatus.pending ProjectStatus.completed
      { status := some "completed" } (by decide) rfl (by decide) rfl).1
    (by decide)⟩

/-- C7: `getAllProjects` equals the spec's formulation of the listing: the
budget bounds are inclusive, category is a case-insensitive substring match,
status an exact match, ordering is newest first, page defaults to 1 and
limit to 10, and the returned page is the slice of length limit at offset
(page−1)·limit of the filtered ordering — for page=2, limit=10 that is items
11–20 — together with the filtered total. The hypotheses record the
handler-enforced domain: a present status is a non-empty enum string and a
present limit is ≥ 1. -/
theorem getAllProjects_matches_spec (filters : ProjectFilters)
    (store : Store) (hstatus : ∀ s, filters.status = some s → s ≠ "")
    (hlimit : ∀ n, filters.limit = some n → 1 ≤ n) :
    getAllProjects filters store = listProjectsSpec filters store := by
  have hlim1 : 1 ≤ filters.limit.getD 10 := by
    cases h : filters.limit with
    | none => simp
    | some n => simpa using hlimit n h
  have hpred : ∀ p ∈ store.projects,
      (buildProjectQuery filters).matchesRow store.users p
        = specKeep filters store p := by
    intro p _
    rw [buildProjectQuery_fields]
    unfold SupaProjectQuery.matchesRow specKeep
    dsimp only
    congr 1
    · congr 1
      · congr 1
        cases hcat : filters.category with
        | none => rfl
        | some c =>
          by_cases hc : c = ""
          · subst hc
            simp [ilikeContains_empty]
          · simp [bne_iff_ne.mpr hc]
    · cases hst : filters.status with
      | none => rfl
      | some s =>
        have hs := hstatus s hst
        simp [bne_iff_ne.mpr hs]
  have harith : (filters.page.getD 1 - 1) * filters.limit.getD 10
      + filters.limit.getD 10 - 1 + 1
      - (filters.page.getD 1 - 1) * filters.limit.getD 10
      = filters.limit.getD 10 := by omega
  have hfilter : store.projects.filter
        ((buildProjectQuery filters).matchesRow store.users)
      = store.projects.filter (specKeep filters store) :=
    List.filter_congr hpred
  have horder : (buildProjectQuery filters).orderDescCreated = true := by
    rw [buildProjectQuery_fields]
  have hrange : (buildProjectQuery filters).rangeWindow
      = some ((filters.page.getD 1 - 1) * filters.limit.getD 10,
          (filters.page.getD 1 - 1) * filters.limit.getD 10
            + filters.limit.getD 10 - 1) := by
    rw [buildProjectQuery_fields]
  unfold getAllProjects listProjectsSpec SupaProjectQuery.run
  simp only [hfilter, horder, hrange, if_true]
  rw [harith]

/-- C7 witness: at page 2, limit 10, inclusive budget bounds 100..500 on a
concrete store, the listing equals the spec formulation. -/
theorem getAllProjects_matches_spec_witness :
    getAllProjects
      { budget_min := some 100, budget_max := some 500, page := some 2,
        limit := some 10 }
      ⟨[⟨"c-1", "Jane", "jane", "ja@x", false⟩],
       [⟨"p-1", "c-1", "T", "D", "Web", 250, "pending", 1⟩]⟩
    = listProjectsSpec
      { budget_min := some 100, budget_max := some 500, page := some 2,
        limit := some 10 }
      ⟨[⟨"c-1", "Jane", "jane", "ja@x", false⟩],
       [⟨"p-1", "c-1", "T", "D", "Web", 250, "pending", 1⟩]⟩ :=
  getAllProjects_matches_spec
    { budget_min := some 100, budget_max := some 500, page := some 2,
      limit := some 10 }
    ⟨[⟨"c-1", "Jane", "jane", "ja@x", false⟩],
     [⟨"p-1", "c-1", "T", "D", "Web", 250, "pending", 1⟩]⟩
    (fun s hs => by cases hs) (fun n hn => by cases hn; decide)

/-- `lexLe` is total. -/
theorem lexLe_total (a : List Char) : ∀ b, (lexLe a b || lexLe b a) = true := by
  induction a with
  | nil => intro b; simp [lexLe]
  | cons x xs ih =>
    intro b
    cases b with
    | nil => simp [lexLe]
    | cons y ys =>
      by_cases h1 : x.toNat < y.toNat
      · have h2 : ¬ y.toNat < x.toNat := by omega
        simp [lexLe, h1, h2]
      · by_cases h2 : y.toNat < x.toNat
        · simp [lexLe, h1, h2]
        · simpa [lexLe, h1, h2] using ih ys

/-- `lexLe` is transitive. -/
theorem lexLe_trans (a : List Char) : ∀ b c, lexLe a b = true →
    lexLe b c = true → lexLe a c = true := by
  induction a with
  | nil => intro b c _ _; simp [lexLe]
  | cons x xs ih =>
    intro b c h1 h2
    cases b with
    | nil => simp [lexLe] at h1
    | cons y ys =>
      cases c with
      | nil => simp [lexLe] at h2
      | cons z zs =>
        by_cases hxy : x.toNat < y.toNat
        · have hyz : y.toNat ≤ z.toNat := by
            by_cases h : y.toNat < z.toNat
            · omega
            · by_cases hzy : z.toNat < y.toNat
              · simp [lexLe, h, hzy] at h2
              · omega
          have hxz : x.toNat < z.toNat := by omega
          simp [lexLe, hxz]
        · by_cases hyx : y.toNat < x.toNat
          · simp [lexLe, hxy, hyx] at h1
          · have h1' : lexLe xs ys = true := by
              simpa [lexLe, hxy, hyx] using h1
            by_cases hyz : y.toNat < z.toNat
            · have hxz : x.toNat < z.toNat := by omega
              simp [lexLe, hxz]
            · by_cases hzy : z.toNat < y.toNat
              · simp [lexLe, hyz, hzy] at h2
              · have h2' : lexLe ys zs = true := by
                  simpa [lexLe, hyz, hzy] using h2
                have hxz : ¬ x.toNat < z.toNat := by omega
                have hzx : ¬ z.toNat < x.toNat := by omega
                simpa [lexLe, hxz, hzx] using ih ys zs h1' h2'

/-- Membership after `Set`-deduplication: in the input and not yet seen. -/
theorem mem_dedupFirstGo (l : List String) : ∀ seen a,
    a ∈ dedupFirstGo l seen ↔ (a ∈ l ∧ a ∉ seen) := by
  induction l with
  | nil => intro seen a; simp [dedupFirstGo]
  | cons x xs ih =>
    intro seen a
    by_cases hx : seen.contains x = true
    · have hxs : x ∈ seen := by simpa using hx
      rw [dedupFirstGo, if_pos hx, ih]
      simp only [List.mem_cons]
      constructor
      · exact fun h => ⟨Or.inr h.1, h.2⟩
      · rintro ⟨h1 | h1, h2⟩
        · exact absurd (h1 ▸ hxs) h2
        · exact ⟨h1, h2⟩
    · have hxs : x ∉ seen := by simpa using hx
      rw [dedupFirstGo, if_neg hx]
      rw [List.mem_cons, ih]
      simp only [List.mem_cons]
      constructor
      · rintro (rfl | ⟨h1, h2⟩)
        · exact ⟨Or.inl rfl, hxs⟩
        · exact ⟨Or.inr h1, fun hm => h2 (Or.inr hm)⟩
      · rintro ⟨h1 | h1, h2⟩
        · exact Or.inl h1
        · by_cases hax : a = x
          · exact Or.inl hax
          · exact Or.inr ⟨h1, by simp [hax, h2]⟩

/-- `Set`-deduplication yields no duplicates. -/
theorem nodup_dedupFirstGo (l : List String) : ∀ seen,
    (dedupFirstGo l seen).Nodup := by
  induction l with
  | nil => intro seen; simp [dedupFirstGo]
  | cons x xs ih =>
    intro seen
    by_cases hx : seen.contains x = true
    · rw [dedupFirstGo, if_pos hx]
      exact ih seen
    · rw [dedupFirstGo, if_neg hx]
      refine List.nodup_cons.mpr ⟨?_, ih (x :: seen)⟩
      intro hmem
      rw [mem_dedupFirstGo] at hmem
      exact hmem.2 (List.mem_cons_self x seen)

/-- C8: `getProjectCategories` is sorted in the string order JS `sort()`
uses, has no duplicates, and contains exactly the category values of the
non-cancelled projects. -/
theorem getProjectCategories_spec (store : Store) :
    List.Pairwise (fun a b => lexLe a.data b.data = true)
      (getProjectCategories store)
  ∧ (getProjectCategories store).Nodup
  ∧ (∀ c, c ∈ getProjectCategories store ↔
      ∃ p ∈ store.projects, p.status ≠ "cancelled" ∧ p.category = c) := by
  have hperm := List.mergeSort_perm
    (dedupFirst ((store.projects.filter
      (fun p => p.status != "cancelled")).map (fun p => p.category)))
    (fun a b => lexLe a.data b.data)
  refine ⟨?_, ?_, ?_⟩
  · exact List.sorted_mergeSort
      (fun a b c hab hbc => lexLe_trans a.data b.data c.data hab hbc)
      (fun a b => lexLe_total a.data b.data) _
  · exact hperm.symm.nodup (nodup_dedupFirstGo _ [])
  · intro c
    simp only [getProjectCategories, sortStrings]
    rw [hperm.mem_iff]
    unfold dedupFirst
    rw [mem_dedupFirstGo]
    simp [List.mem_map, List.mem_filter, bne_iff_ne, and_assoc]

end OfferHub
